import Mathlib

/-!
# Verification of js-changelog (version model, release orchestration, CLI dispatch)

Shallow embedding of the js-changelog repository:
* `src/src/support.js` — `parseVersionTag`, `tagCurrentCommit`, `currentRelease`,
  `computeNewReleaseTag`, `getLastTaggedCommitSHA`, `getAssociatedTag`,
  `isGitCommandAvailable`;
* `src/src/index.js` — `createRelease`, `updatePackageJsonVersion`, `updateChangelog`,
  and the `main` dispatch;
* `src/src/cli_commands.js` — `execute`;
* the constants module — `SEMVER_TAG_PATTERN`, `SEMVER_ZERO`, `RELEASE_TYPES`, default paths;
* the parsing module — `getParser` action constants and `processArgs`.

Strings are modelled as `List Char`.  JavaScript `Number` values arising from
`Number(digitString)` and the `+ 1` increments are modelled as `Nat` (exact for all
values below 2^53; the digit strings handled here are decimal numerals).

The regular expression `/(?<description>[a-zA-Z]*)(?<major>\d+)\.(?<minor>\d+).(?<patch>\d+)\s*/g`
is embedded as an explicit matcher (`matchAt`, `searchSuffix`, `execG`) that reproduces
the JavaScript backtracking semantics of this particular pattern, including:
* the *unescaped* second separator (any character except a line terminator);
* scan-from-start semantics (`exec` tries successive start positions);
* the statefulness of the `g` flag (`lastIndex` is kept between `exec` calls,
  advanced on a successful match and reset to 0 on a failed one).
Character classes are the ASCII parts of `[a-zA-Z]`, `\d`, `\s` (the tags handled
by the tool are ASCII).
-/

/-- ASCII letter test, embedding the regex class `[a-zA-Z]`. -/
def isLetterCh (c : Char) : Bool :=
  (decide (65 ≤ c.toNat) && decide (c.toNat ≤ 90)) ||
  (decide (97 ≤ c.toNat) && decide (c.toNat ≤ 122))

/-- ASCII digit test, embedding the regex class `\d`. -/
def isDigitCh (c : Char) : Bool :=
  decide (48 ≤ c.toNat) && decide (c.toNat ≤ 57)

/-- ASCII whitespace test, embedding the regex class `\s` (ASCII part). -/
def isSpaceCh (c : Char) : Bool :=
  decide (c.toNat = 32) || decide (c.toNat = 9) || decide (c.toNat = 10) ||
  decide (c.toNat = 13) || decide (c.toNat = 11) || decide (c.toNat = 12)

/-- Line-terminator test: the characters the regex metacharacter `.` does not match. -/
def isNewlineCh (c : Char) : Bool :=
  decide (c.toNat = 10) || decide (c.toNat = 13)

/-- The value of a decimal digit character (JS `Number` on a one-digit string). -/
def digitVal (c : Char) : Nat := c.toNat - 48

/-- Decimal digit characters, used to render a `Nat` the way a JS template literal does. -/
def digitCh (n : Nat) : Char :=
  match n with
  | 0 => '0' | 1 => '1' | 2 => '2' | 3 => '3' | 4 => '4'
  | 5 => '5' | 6 => '6' | 7 => '7' | 8 => '8' | 9 => '9'
  | _ => '*'

/-- Fuel-driven decimal rendering of a natural number (no leading zeros). -/
def natToCharsAux : Nat → Nat → List Char
  | 0, _ => []
  | fuel + 1, n =>
    if n < 10 then [digitCh n]
    else natToCharsAux fuel (n / 10) ++ [digitCh (n % 10)]

/-- Decimal rendering of a natural number, as produced by a JS template literal
`${n}` for a non-negative integer `n`. -/
def natToChars (n : Nat) : List Char := natToCharsAux (n + 1) n

/-- One step of the decimal evaluation fold. -/
def natStep (a : Nat) (c : Char) : Nat := 10 * a + digitVal c

/-- The value JS `Number` gives to a string of decimal digits. -/
def natOfChars (l : List Char) : Nat := l.foldl natStep 0

/-! ## The SEMVER tag pattern

`SEMVER_TAG_PATTERN = /(?<description>[a-zA-Z]*)(?<major>\d+)\.(?<minor>\d+).(?<patch>\d+)\s*/g`
(the constants module, `src/src/index.js` line 28 and the defaults module line 30).
Note the second separator between `minor` and `patch` is an *unescaped* dot:
it matches any character except a line terminator. -/

/-- The named capture groups of a successful `SEMVER_TAG_PATTERN` match. -/
structure TagGroups where
  description : List Char
  major : List Char
  minor : List Char
  patch : List Char
deriving DecidableEq, Repr

/-- Backtracking search for the `(?<minor>\d+).(?<patch>\d+)` part of the pattern
at the start of `s3`.  `\d+` is greedy, so candidate lengths for `minor` are tried
from `ml` (the maximal digit run length) down to 1; the unescaped `.` then matches
one arbitrary non-line-terminator character; `(?<patch>\d+)` takes the maximal
digit run after it.  Returns `(minor, patch, rest)`. -/
def tryMinor (s3 : List Char) : Nat → Option (List Char × List Char × List Char)
  | 0 => none
  | ml + 1 =>
    match s3.drop (ml + 1) with
    | [] => tryMinor s3 ml
    | c :: s4 =>
      if isNewlineCh c then tryMinor s3 ml
      else if (s4.takeWhile isDigitCh).isEmpty then tryMinor s3 ml
      else some (s3.take (ml + 1), s4.takeWhile isDigitCh, s4.dropWhile isDigitCh)

/-- Attempt to match `SEMVER_TAG_PATTERN` at the start of `s`.  On success returns
the capture groups and the total number of characters consumed (including the
trailing `\s*`).  Greedy `[a-zA-Z]*` and `\d+` runs need no backtracking at the
letter/digit boundaries because the character classes are disjoint and the
escaped first `\.` can never match a digit. -/
def matchAt (s : List Char) : Option (TagGroups × Nat) :=
  let desc := s.takeWhile isLetterCh
  let s1 := s.dropWhile isLetterCh
  let maj := s1.takeWhile isDigitCh
  if maj.isEmpty then none
  else
    match s1.dropWhile isDigitCh with
    | [] => none
    | c :: s3 =>
      if c = '.' then
        match tryMinor s3 (s3.takeWhile isDigitCh).length with
        | none => none
        | some (mnr, pat, rest) =>
          some (⟨desc, maj, mnr, pat⟩,
            desc.length + maj.length + 1 + mnr.length + 1 + pat.length +
              (rest.takeWhile isSpaceCh).length)
      else none

/-- Scan-from-start search: try `matchAt` at successive start positions, as
JavaScript `RegExp.exec` does.  Returns the offset of the first matching
position together with the match. -/
def searchSuffix : List Char → Option (Nat × TagGroups × Nat)
  | [] => none
  | c :: rest =>
    match matchAt (c :: rest) with
    | some (g, len) => some (0, g, len)
    | none =>
      match searchSuffix rest with
      | some (k, g, len) => some (k + 1, g, len)
      | none => none

/-- Model of `SEMVER_TAG_PATTERN.exec(s)` for the *global* pattern: the search starts at the
persistent `lastIndex` `li`.  On success, the result is the match and `lastIndex`
is set to the end of the match; on failure the result is `null` and `lastIndex`
is reset to 0 (also when `lastIndex` exceeds the string length). -/
def execG (s : List Char) (li : Nat) : Option TagGroups × Nat :=
  if li > s.length then (none, 0)
  else
    match searchSuffix (s.drop li) with
    | none => (none, 0)
    | some (k, g, len) => (some g, li + k + len)

/-- Model of `s.match(SEMVER_TAG_PATTERN)` truthiness: with a global regex, `String.match`
collects matches from position 0 regardless of `lastIndex`, and the result is
truthy exactly when at least one match exists anywhere in the string. -/
def testPattern (s : List Char) : Bool := (searchSuffix s).isSome

/-! ## Version model -/

/-- A parsed version: the result object of `parseVersionTag`
(`{description, major, minor, patch}`, JSDoc type `SemVerInfo`). -/
structure SemVer where
  description : List Char
  major : Nat
  minor : Nat
  patch : Nat
deriving DecidableEq, Repr

/-- Structured model of the `Error` values the tool throws.  Each constructor
carries the data the corresponding message interpolates:
* `parseError s` — "Unable to parse version tag '${s}' …";
* `invalidReleaseType k` — "Invalid release type: \"${k}\" …";
* `cmdError c` — a failed external command `c` (`child_process.exec` rejection);
* `fsError p` — `fs.readFileSync(p)` threw (file missing/unreadable);
* `tagFormatError t` — "The provided tag (${t}) does not conform to SEMVER format …";
* `typeErrorNullTrim` — calling `.trim()` on `null`;
* `computeFailed e` — "Unable to compute a new release tag starting from … ${e}";
* `releaseFailed k e` — "Failed creating ${k} release: ${e}". -/
inductive JsError where
  | gitUnavailable
  | parseError (input : List Char)
  | invalidReleaseType (kind : Option String)
  | cmdError (command : List Char)
  | fsError (path : List Char)
  | tagFormatError (tag : List Char)
  | typeErrorNullTrim
  | computeFailed (inner : JsError)
  | releaseFailed (kind : Option String) (inner : JsError)
deriving DecidableEq, Repr

deriving instance DecidableEq for Except

/-- Model of `parseVersionTag` (`src/src/support.js` lines 67-77): run the shared global
pattern's `exec` from the current `lastIndex` `li`; on a match return the named
groups with the three digit groups converted by `Number`; otherwise throw a parse
error naming the input.  Returns the outcome together with the pattern's new
`lastIndex`. -/
def parseVersionTag (s : List Char) (li : Nat) : Except JsError SemVer × Nat :=
  match execG s li with
  | (none, li') => (.error (.parseError s), li')
  | (some g, li') =>
    (.ok ⟨g.description, natOfChars g.major, natOfChars g.minor, natOfChars g.patch⟩, li')

/-- Constant `SEMVER_ZERO = "0.0.0"` (the constants module). -/
def SEMVER_ZERO : List Char := ['0', '.', '0', '.', '0']

/-- The version string `"{description}{major}.{minor}.{patch}"` for given
components — the string form the spec's `format` denotes.  `computeNewReleaseTag`
produces exactly these strings via template literals. -/
def formatChars (d : List Char) (a b c : Nat) : List Char :=
  d ++ (natToChars a ++ ('.' :: (natToChars b ++ ('.' :: natToChars c))))

/-- The `switch (args.action.release)` body of `computeNewReleaseTag`
(`src/src/support.js` lines 133-145), applied to an already-parsed current
version.  The three release types produce the template literals
`` `${d}${major+1}.0.0` ``, `` `${d}${major}.${minor+1}.0` ``,
`` `${d}${major}.${minor}.${patch+1}` ``; any other value hits the `default`
branch and throws an invalid-release-type error naming the value. -/
def computeNewVersion (cur : SemVer) (rel : Option String) : Except JsError (List Char) :=
  if rel = some "major" then
    .ok (cur.description ++ (natToChars (cur.major + 1) ++ ['.', '0', '.', '0']))
  else if rel = some "minor" then
    .ok (cur.description ++ (natToChars cur.major ++ ('.' :: (natToChars (cur.minor + 1) ++ ['.', '0']))))
  else if rel = some "patch" then
    .ok (cur.description ++ (natToChars cur.major ++ ('.' :: (natToChars cur.minor ++ ('.' :: natToChars (cur.patch + 1))))))
  else .error (.invalidReleaseType rel)

/-! ## Round-trip lemmas for the parser -/

/-- The spec's `format`: render a version's components back to a string. -/
def formatVer (v : SemVer) : List Char := formatChars v.description v.major v.minor v.patch

/-! ## World model: filesystem, shared regex state, observable side effects

The orchestrator's side effects are recorded as an event trace: file reads and
writes of the manifest, executed shell commands, and `console.log` lines.  The
shared mutable state is the manifest file contents (`packageJson`) and the
global pattern's `lastIndex` (`regex`).  External command outcomes are supplied
by an environment `CmdEnv` mapping each command line to its result. -/

/-- Values of manifest (package.json) fields.  The `raw` constructor stands for
any other JSON value (object, array, …); `updatePackageJsonVersion` never
inspects the values of fields other than `version`, so their internal structure
is irrelevant to the claims. -/
inductive JVal where
  | str (s : List Char)
  | num (n : Int)
  | boolean (b : Bool)
  | null
  | raw (tag : Nat)
deriving DecidableEq, Repr

/-- A parsed manifest document: the ordered fields of the JSON object. -/
abbrev Manifest := List (String × JVal)

/-- Observable side effects, in program order. -/
inductive Event where
  | fsRead (path : List Char)
  | fsWrite (path : List Char) (contents : Manifest) (indent : Nat)
  | cmd (command : List Char)
  | log (line : List Char)
deriving DecidableEq, Repr

/-- The mutable state threaded through a run: the manifest file (if present),
the shared `SEMVER_TAG_PATTERN.lastIndex`, and the event trace so far. -/
structure World where
  packageJson : Option Manifest
  regex : Nat
  trace : List Event
deriving DecidableEq, Repr

/-- Outcome of each external command, supplied by the test environment:
`.ok stdout` for exit code 0, `.error ()` for a non-zero exit or spawn failure. -/
abbrev CmdEnv := List Char → Except Unit (List Char)

/-- A JS value stored in `args.action` by the argument parser (the parsing
module, `getParser`): either a plain string (the `--current` action constant
`"currentRelease"`) or an object `{name, release}` (the other action constants;
`release` is absent for `--changelog`). -/
inductive ActionVal where
  | str (s : String)
  | obj (name : String) (release : Option String)
deriving DecidableEq, Repr

/-- Parsed command-line arguments (JSDoc type `CommandLineArgs`). -/
structure CmdArgs where
  action : Option ActionVal
  verbose : Bool
  changelog_output : List Char
  changelog_template : List Char
  package_json : List Char
deriving DecidableEq, Repr

/-- The JS property access `args.action.release`: `undefined` (`none`) unless
the action is an object carrying a `release` field. -/
def actionRelease (args : CmdArgs) : Option String :=
  match args.action with
  | some (.obj _ r) => r
  | _ => none

def gitVersionCmd : List Char := "git --version".toList

def revListCmd : List Char := "git rev-list --tags --max-count=1".toList

def describeCmd (sha : List Char) : List Char := "git describe --tags ".toList ++ sha

def addCmd (path : List Char) : List Char := "git add ".toList ++ path

def amendCmd : List Char := "git commit --amend --no-edit".toList

def tagCmd (tag : List Char) : List Char := "git tag ".toList ++ tag

def changelogCmd (template output : List Char) : List Char :=
  "auto-changelog --unreleased --template ".toList ++ template ++
    (" --output ".toList ++ output)

/-- Model of `CLI_COMMANDS.execute` (`src/src/cli_commands.js`): run the command,
record it in the trace, return stdout on success and a command error otherwise. -/
def execute (env : CmdEnv) (c : List Char) (w : World) : Except JsError (List Char) × World :=
  (match env c with
   | .ok out => .ok out
   | .error _ => .error (.cmdError c),
   { w with trace := w.trace ++ [.cmd c] })

/-- Model of `isGitCommandAvailable` (`src/src/support.js` lines 24-31). -/
def isGitCommandAvailable (env : CmdEnv) (w : World) : Except JsError Bool × World :=
  match execute env gitVersionCmd w with
  | (.ok _, w1) => (.ok true, w1)
  | (.error _, w1) => (.error .gitUnavailable, w1)

/-- Model of `getLastTaggedCommitSHA` (`src/src/support.js` lines 51-57):
`null` on command failure, stdout otherwise. -/
def getLastTaggedCommitSHA (env : CmdEnv) (w : World) : Option (List Char) × World :=
  match execute env revListCmd w with
  | (.ok out, w1) => (some out, w1)
  | (.error _, w1) => (none, w1)

/-- Model of `getAssociatedTag` (`src/src/support.js` lines 39-45):
`null` on command failure, stdout otherwise. -/
def getAssociatedTag (env : CmdEnv) (sha : List Char) (w : World) : Option (List Char) × World :=
  match execute env (describeCmd sha) w with
  | (.ok out, w1) => (some out, w1)
  | (.error _, w1) => (none, w1)

/-- The shared body of `currentRelease` (`src/src/support.js` lines 103-119):
check git, read the last tagged commit SHA, and resolve the release string.
The ternary `lastTaggedCommitSHA ? await getAssociatedTag(...) : SEMVER_ZERO`
tests JS truthiness: both `null` (command failed) and the empty string
(command succeeded with no output) are falsy and resolve to `SEMVER_ZERO`.
The result is `none` exactly when `getAssociatedTag` returned `null`. -/
def currentReleaseCore (env : CmdEnv) (w : World) :
    Except JsError (Option (List Char)) × World :=
  match isGitCommandAvailable env w with
  | (.error e, w1) => (.error e, w1)
  | (.ok _, w1) =>
    match getLastTaggedCommitSHA env w1 with
    | (none, w2) => (.ok (some SEMVER_ZERO), w2)
    | (some sha, w2) =>
      if sha.isEmpty then (.ok (some SEMVER_ZERO), w2)
      else
        match getAssociatedTag env sha w2 with
        | (r, w3) => (.ok r, w3)

/-- Message printed by `currentRelease` in verbose mode; interpolating `null`
prints the string "null". -/
def currentMsg (o : Option (List Char)) : List Char :=
  "Current release is ".toList ++ (match o with | some s => s | none => "null".toList)

/-- Model of `currentRelease(args, parsed = false)` (`src/src/support.js`):
resolve the release string and, when `args.verbose`, log it. -/
def currentRelease (env : CmdEnv) (args : CmdArgs) (w : World) :
    Except JsError (Option (List Char)) × World :=
  match currentReleaseCore env w with
  | (.error e, w1) => (.error e, w1)
  | (.ok so, w1) =>
    if args.verbose then (.ok so, { w1 with trace := w1.trace ++ [.log (currentMsg so)] })
    else (.ok so, w1)

/-- Model of `currentRelease(args, parsed = true)`: resolve the release string
and parse it with the shared stateful pattern.  A `null` release string is
coerced by `exec` to the string "null" (which fails to parse). -/
def currentReleaseParsed (env : CmdEnv) (w : World) : Except JsError SemVer × World :=
  match currentReleaseCore env w with
  | (.error e, w1) => (.error e, w1)
  | (.ok so, w1) =>
    match parseVersionTag (match so with | some s => s | none => "null".toList) w1.regex with
    | (r, li) => (r, { w1 with regex := li })

/-- Model of `computeNewReleaseTag(args)` (`src/src/support.js` lines 127-151):
parse the current release and apply the release-type switch; any error thrown
inside the `try` block is wrapped ("Unable to compute a new release tag …"). -/
def computeNewReleaseTag (env : CmdEnv) (args : CmdArgs) (w : World) :
    Except JsError (List Char) × World :=
  match currentReleaseParsed env w with
  | (.error e, w1) => (.error (.computeFailed e), w1)
  | (.ok cur, w1) =>
    match computeNewVersion cur (actionRelease args) with
    | .ok s => (.ok s, w1)
    | .error e => (.error (.computeFailed e), w1)

/-- Model of JS `String.prototype.trim`: strip whitespace from both ends. -/
def trimChars (s : List Char) : List Char :=
  ((s.dropWhile isSpaceCh).reverse.dropWhile isSpaceCh).reverse

/-- JS property assignment `obj[k] = v` on a parsed JSON object: replace the
value of an existing key in place, or append the key at the end. -/
def setField (m : Manifest) (k : String) (v : JVal) : Manifest :=
  match m with
  | [] => [(k, v)]
  | (k', v') :: rest => if k' = k then (k, v) :: rest else (k', v') :: setField rest k v

/-- JS property read `obj[k]` on a parsed JSON object. -/
def getField (m : Manifest) (k : String) : Option JVal :=
  match m with
  | [] => none
  | (k', v') :: rest => if k' = k then some v' else getField rest k

/-- Model of `updatePackageJsonVersion` (`src/src/index.js` lines 376-383):
read and parse the manifest (throwing if the file is missing), set its
`version` field to `newRel.trim()`, rewrite it with
`JSON.stringify(data, undefined, 4)` (4-space indentation), then run
`git add <path>` and `git commit --amend --no-edit`. -/
def updatePackageJsonVersion (env : CmdEnv) (newRel : List Char) (args : CmdArgs) (w : World) :
    Except JsError Unit × World :=
  let w0 := { w with trace := w.trace ++ [.fsRead args.package_json] }
  match w.packageJson with
  | none => (.error (.fsError args.package_json), w0)
  | some m =>
    let m1 := setField m "version" (.str (trimChars newRel))
    let w1 : World :=
      ⟨some m1, w0.regex, w0.trace ++ [.fsWrite args.package_json m1 4]⟩
    match execute env (addCmd args.package_json) w1 with
    | (.error e, w2) => (.error e, w2)
    | (.ok _, w2) =>
      match execute env amendCmd w2 with
      | (.error e, w3) => (.error e, w3)
      | (.ok _, w3) => (.ok (), w3)

/-- Model of `tagCurrentCommit` (`src/src/support.js` lines 86-91): validate the
tag against the pattern with `tag.match(SEMVER_TAG_PATTERN)` (which resets the
global pattern's `lastIndex` to 0 regardless of outcome), then run
`git tag <tag>`; a failing check throws an error naming the tag. -/
def tagCurrentCommit (env : CmdEnv) (tag : List Char) (w : World) :
    Except JsError Unit × World :=
  if testPattern tag then
    match execute env (tagCmd tag) { w with regex := 0 } with
    | (.error e, w1) => (.error e, w1)
    | (.ok _, w1) => (.ok (), w1)
  else (.error (.tagFormatError tag), { w with regex := 0 })

/-- Confirmation line printed after changelog generation. -/
def changelogMsg (t : List Char) : List Char :=
  "Changelog for version ".toList ++ t ++ " created.".toList

/-- Model of `updateChangelog(args, versionTagStr)` (`src/src/index.js` lines
342-349): when `versionTagStr` is falsy (absent or the empty string) it is
fetched via `support.currentRelease(args)`; a `null` fetched value makes
`versionTagStr.trim()` throw a TypeError; otherwise the auto-changelog command
runs and a confirmation line naming the trimmed version is printed. -/
def updateChangelog (env : CmdEnv) (args : CmdArgs) (vt : Option (List Char)) (w : World) :
    Except JsError Unit × World :=
  match (match vt with
         | some s => if s.isEmpty then currentRelease env args w else (.ok (some s), w)
         | none => currentRelease env args w) with
  | (.error e, w1) => (.error e, w1)
  | (.ok none, w1) => (.error .typeErrorNullTrim, w1)
  | (.ok (some s), w1) =>
    match execute env (changelogCmd args.changelog_template args.changelog_output) w1 with
    | (.error e, w2) => (.error e, w2)
    | (.ok _, w2) => (.ok (), { w2 with trace := w2.trace ++ [.log (changelogMsg (trimChars s))] })

/-- Model of `createRelease(args)` (`src/src/index.js` lines 357-366): the fixed
pipeline compute → persist → tag → changelog; the `catch` wraps any error as
"Failed creating ${args.action.release} release: …". -/
def createRelease (env : CmdEnv) (args : CmdArgs) (w : World) : Except JsError Unit × World :=
  match computeNewReleaseTag env args w with
  | (.error e, w1) => (.error (.releaseFailed (actionRelease args) e), w1)
  | (.ok newTag, w1) =>
    match updatePackageJsonVersion env newTag args w1 with
    | (.error e, w2) => (.error (.releaseFailed (actionRelease args) e), w2)
    | (.ok _, w2) =>
      match tagCurrentCommit env newTag w2 with
      | (.error e, w3) => (.error (.releaseFailed (actionRelease args) e), w3)
      | (.ok _, w3) =>
        match updateChangelog env args (some newTag) w3 with
        | (.error e, w4) => (.error (.releaseFailed (actionRelease args) e), w4)
        | (.ok _, w4) => (.ok (), w4)

/-! ## CLI front end (the parsing module and the `main` dispatch of `src/src/index.js`) -/

def CHANGELOG_PATH : List Char := "./CHANGELOG.md".toList

def CHANGELOG_TEMPLATE_PATH : List Char :=
  "./node_modules/@cionzo/js-changelog/configs/changelog-template.hbs".toList

def PACKAGE_JSON_PATH : List Char := "./package.json".toList

/-- The mutually exclusive action flags of `getParser`. -/
inductive ActionFlag where
  | current
  | major
  | minor
  | patch
  | changelogOnly
deriving DecidableEq, Repr

/-- The `store_const` constants `getParser` assigns to `args.action` (the parsing
module): `--current` stores the plain *string* `"currentRelease"`; the release
flags store objects `{name: "createRelease", release: <kind>}`; `--changelog`
stores `{name: "updateChangelog"}`. -/
def actionConst : ActionFlag → ActionVal
  | .current => .str "currentRelease"
  | .major => .obj "createRelease" (some "major")
  | .minor => .obj "createRelease" (some "minor")
  | .patch => .obj "createRelease" (some "patch")
  | .changelogOnly => .obj "updateChangelog" none

/-- Arguments produced by `parser.parse_args()` for a given action flag, with the
default paths from the constants module; `getParser` defines no verbose flag, so
`args.verbose` starts falsy. -/
def parseCLI (fl : Option ActionFlag) : CmdArgs :=
  { action := fl.map actionConst
    verbose := false
    changelog_output := CHANGELOG_PATH
    changelog_template := CHANGELOG_TEMPLATE_PATH
    package_json := PACKAGE_JSON_PATH }

/-- Model of `processArgs` (the parsing module): `--current` implies verbose.
The comparison is JS strict equality with the string `"currentRelease"`. -/
def processArgs (args : CmdArgs) : CmdArgs :=
  if args.action = some (.str "currentRelease") then { args with verbose := true } else args

/-- The key used by the `main` dispatch `module.exports[`${args.action.name}`]`:
the `name` property of the action value, or the string `"undefined"` when the
property is absent (template-literal interpolation of `undefined`). -/
def dispatchKey (a : ActionVal) : String :=
  match a with
  | .str _ => "undefined"
  | .obj n _ => n

/-- Outcome of the command-line entry point: printed usage help, a TypeError
from calling a missing export, or the invoked handler's result. -/
inductive MainResult where
  | printedHelp
  | typeError (key : String)
  | ranCreateRelease (r : Except JsError Unit)
  | ranUpdateChangelog (r : Except JsError Unit)
deriving DecidableEq, Repr

/-- Model of the command-line entry point of `src/src/index.js` (lines 394-404):
parse arguments, apply `processArgs`, then
`args.action ? module.exports[`${args.action.name}`](args) : parser.print_help()`.
The module exports of `src/src/index.js` are exactly `updateChangelog` and
`createRelease`; looking up any other key yields `undefined`, and calling it
throws a TypeError before any side effect. -/
def runMain (env : CmdEnv) (fl : Option ActionFlag) (w : World) : MainResult × World :=
  let args := processArgs (parseCLI fl)
  match args.action with
  | none => (.printedHelp, w)
  | some a =>
    if dispatchKey a = "updateChangelog" then
      match updateChangelog env args none w with
      | (r, w1) => (.ranUpdateChangelog r, w1)
    else if dispatchKey a = "createRelease" then
      match createRelease env args w with
      | (r, w1) => (.ranCreateRelease r, w1)
    else (.typeError (dispatchKey a), w)

/-! ## Shape lemmas for the release pipeline -/

/-- Events that the current-release resolution (the compute step) can emit:
the three git query commands and log lines — never a file write, a `git tag`,
or an auto-changelog invocation. -/
def isQueryEvent (e : Event) : Prop :=
  e = .cmd gitVersionCmd ∨ e = .cmd revListCmd ∨
  (∃ sha, e = .cmd (describeCmd sha)) ∨ (∃ l, e = .log l)

/-! ## Command distinctness and tag-command detection -/

/-- Detect a `git tag …` command in a trace. -/
def hasTagCmd (l : List Event) : Bool :=
  l.any (fun e =>
    match e with
    | .cmd c => "git tag ".toList.isPrefixOf c
    | _ => false)

/-! ## Test fixtures for witnesses -/

/-- Environment of a repository with no tags where `git rev-list` exits non-zero. -/
def testEnvNoTags : CmdEnv := fun c =>
  if c = gitVersionCmd then .ok "git version 2.39.0".toList else .error ()

/-- Environment of a repository with no tags where `git rev-list` succeeds with
empty output and every other command succeeds. -/
def testEnvAllOk : CmdEnv := fun _ => .ok []

/-- Arguments of a `--patch` release with the default paths. -/
def testArgsPatch : CmdArgs :=
  { action := some (.obj "createRelease" (some "patch"))
    verbose := false
    changelog_output := CHANGELOG_PATH
    changelog_template := CHANGELOG_TEMPLATE_PATH
    package_json := PACKAGE_JSON_PATH }

/-- A small manifest with a `name` and a `version` field. -/
def testManifest : Manifest :=
  [("name", .str "demo".toList), ("version", .str "1.0.0".toList)]

/-- A fresh world: given manifest, pattern state 0, empty trace. -/
def testWorld (pj : Option Manifest) : World := ⟨pj, 0, []⟩

/-! ## Claim theorems -/

/-- The events of a successful manifest persist step, in order. -/
def persistEvents (p : List Char) (m1 : Manifest) : List Event :=
  [.fsRead p, .fsWrite p m1 4, .cmd (addCmd p), .cmd amendCmd]

/-! ## Theorems -/

theorem not_isLetterCh_of_isDigitCh {c : Char} (h : isDigitCh c = true) :
    isLetterCh c = false := by
  simp only [isDigitCh, Bool.and_eq_true, decide_eq_true_eq] at h
  simp only [isLetterCh, Bool.or_eq_false_iff, Bool.and_eq_false_iff,
    decide_eq_false_iff_not, not_le]
  omega

theorem digitVal_digitCh {n : Nat} (h : n < 10) : digitVal (digitCh n) = n := by
  interval_cases n <;> rfl

theorem isDigitCh_digitCh {n : Nat} (h : n < 10) : isDigitCh (digitCh n) = true := by
  interval_cases n <;> rfl

theorem natOfChars_append_digit (l : List Char) (c : Char) :
    natOfChars (l ++ [c]) = 10 * natOfChars l + digitVal c := by
  simp [natOfChars, List.foldl_append, natStep]

theorem natToCharsAux_spec :
    ∀ fuel n, n < fuel →
      (natToCharsAux fuel n ≠ [] ∧
       (∀ x ∈ natToCharsAux fuel n, isDigitCh x = true) ∧
       natOfChars (natToCharsAux fuel n) = n)
  | 0, n, h => absurd h (Nat.not_lt_zero n)
  | fuel + 1, n, h => by
    by_cases h10 : n < 10
    · refine ⟨by simp [natToCharsAux, h10], ?_, ?_⟩
      · intro x hx
        simp [natToCharsAux, h10] at hx
        subst hx
        exact isDigitCh_digitCh h10
      · simp [natToCharsAux, h10, natOfChars, natStep, digitVal_digitCh h10]
    · have hdiv : n / 10 < n := Nat.div_lt_self (by omega) (by omega)
      have hfuel : n / 10 < fuel := by omega
      obtain ⟨hne, hdig, hval⟩ := natToCharsAux_spec fuel (n / 10) hfuel
      refine ⟨by simp [natToCharsAux, h10], ?_, ?_⟩
      · intro x hx
        simp only [natToCharsAux, if_neg h10, List.mem_append, List.mem_singleton] at hx
        rcases hx with hx | hx
        · exact hdig x hx
        · subst hx
          exact isDigitCh_digitCh (Nat.mod_lt _ (by omega))
      · simp only [natToCharsAux, if_neg h10]
        rw [natOfChars_append_digit, hval, digitVal_digitCh (Nat.mod_lt _ (by omega))]
        omega

theorem natToChars_ne_nil (n : Nat) : natToChars n ≠ [] :=
  (natToCharsAux_spec (n + 1) n (Nat.lt_succ_self n)).1

theorem natToChars_all_digits (n : Nat) : ∀ x ∈ natToChars n, isDigitCh x = true :=
  (natToCharsAux_spec (n + 1) n (Nat.lt_succ_self n)).2.1

theorem natOfChars_natToChars (n : Nat) : natOfChars (natToChars n) = n :=
  (natToCharsAux_spec (n + 1) n (Nat.lt_succ_self n)).2.2

theorem takeWhile_all {α : Type} {p : α → Bool} {l : List α} (h : ∀ x ∈ l, p x = true) :
    l.takeWhile p = l := by
  have h2 := @List.takeWhile_append_of_pos α p l [] h
  simpa using h2

theorem dropWhile_all {α : Type} {p : α → Bool} {l : List α} (h : ∀ x ∈ l, p x = true) :
    l.dropWhile p = [] := by
  have h2 := @List.dropWhile_append_of_pos α p l [] h
  simpa using h2

theorem matchAt_formatChars (d : List Char) (hd : ∀ x ∈ d, isLetterCh x = true) (a b c : Nat) :
    matchAt (formatChars d a b c) =
      some (⟨d, natToChars a, natToChars b, natToChars c⟩,
        d.length + (natToChars a).length + 1 + (natToChars b).length + 1 +
          (natToChars c).length + 0) := by
  obtain ⟨y, ytl, hna⟩ : ∃ y ytl, natToChars a = y :: ytl := by
    cases h : natToChars a with
    | nil => exact absurd h (natToChars_ne_nil a)
    | cons y t => exact ⟨y, t, rfl⟩
  obtain ⟨z, ztl, hnb⟩ : ∃ z ztl, natToChars b = z :: ztl := by
    cases h : natToChars b with
    | nil => exact absurd h (natToChars_ne_nil b)
    | cons z t => exact ⟨z, t, rfl⟩
  obtain ⟨w, wtl, hnc⟩ : ∃ w wtl, natToChars c = w :: wtl := by
    cases h : natToChars c with
    | nil => exact absurd h (natToChars_ne_nil c)
    | cons w t => exact ⟨w, t, rfl⟩
  have hyd : isLetterCh y = false :=
    not_isLetterCh_of_isDigitCh (natToChars_all_digits a y (hna ▸ List.mem_cons_self y ytl))
  have hdotD : isDigitCh '.' = false := by decide
  have hdotN : isNewlineCh '.' = false := by decide
  have h1 : (formatChars d a b c).takeWhile isLetterCh = d := by
    rw [formatChars, List.takeWhile_append_of_pos (by simpa using hd), hna]
    simp [hyd]
  have h2 : (formatChars d a b c).dropWhile isLetterCh =
      natToChars a ++ ('.' :: (natToChars b ++ ('.' :: natToChars c))) := by
    rw [formatChars, List.dropWhile_append_of_pos (by simpa using hd), hna, List.cons_append,
      List.dropWhile_cons_of_neg (by simp [hyd]), ← List.cons_append, ← hna]
  have h3 : (natToChars a ++ ('.' :: (natToChars b ++ ('.' :: natToChars c)))).takeWhile isDigitCh
      = natToChars a := by
    rw [List.takeWhile_append_of_pos (by simpa using natToChars_all_digits a)]
    simp [hdotD]
  have h4 : (natToChars a ++ ('.' :: (natToChars b ++ ('.' :: natToChars c)))).dropWhile isDigitCh
      = '.' :: (natToChars b ++ ('.' :: natToChars c)) := by
    rw [List.dropWhile_append_of_pos (by simpa using natToChars_all_digits a)]
    simp [hdotD]
  have h5 : (natToChars b ++ ('.' :: natToChars c)).takeWhile isDigitCh = natToChars b := by
    rw [List.takeWhile_append_of_pos (by simpa using natToChars_all_digits b)]
    simp [hdotD]
  have hlenb : (natToChars b).length = ztl.length + 1 := by rw [hnb]; rfl
  have h6 : tryMinor (natToChars b ++ ('.' :: natToChars c)) (ztl.length + 1) =
      some (natToChars b, natToChars c, []) := by
    have hdrop : (natToChars b ++ ('.' :: natToChars c)).drop (ztl.length + 1) =
        '.' :: natToChars c := List.drop_left' hlenb
    have htake : (natToChars b ++ ('.' :: natToChars c)).take (ztl.length + 1) =
        natToChars b := List.take_left' hlenb
    have hncd : (natToChars c).takeWhile isDigitCh = natToChars c :=
      takeWhile_all (natToChars_all_digits c)
    have hncd' : (natToChars c).dropWhile isDigitCh = [] :=
      dropWhile_all (natToChars_all_digits c)
    have hne : (natToChars c).isEmpty = false := by rw [hnc]; rfl
    simp only [tryMinor, hdrop, hdotN, Bool.false_eq_true, if_neg, hncd, hncd', hne, htake]
    simp
  simp only [matchAt, h1, h2, h3, h4, h5, hlenb, h6]
  have hnaE : (natToChars a).isEmpty = false := by rw [hna]; rfl
  simp [hnaE]

theorem matchAt_nil : matchAt ([] : List Char) = none := rfl

theorem searchSuffix_of_matchAt {s : List Char} {g : TagGroups} {len : Nat}
    (h : matchAt s = some (g, len)) : searchSuffix s = some (0, g, len) := by
  cases s with
  | nil => rw [matchAt_nil] at h; cases h
  | cons x xs => simp [searchSuffix, h]

theorem parseVersionTag_formatChars (p : List Char) (a b c : Nat)
    (hp : ∀ x ∈ p, isLetterCh x = true) :
    (parseVersionTag (formatChars p a b c) 0).1 = .ok ⟨p, a, b, c⟩ := by
  have hm := matchAt_formatChars p hp a b c
  have hs := searchSuffix_of_matchAt hm
  simp only [parseVersionTag, execG]
  rw [if_neg (by omega), List.drop_zero, hs]
  simp [natOfChars_natToChars]

theorem matchAt_desc {s : List Char} {g : TagGroups} {len : Nat}
    (h : matchAt s = some (g, len)) : g.description = s.takeWhile isLetterCh := by
  simp only [matchAt] at h
  split at h
  · cases h
  · split at h
    · cases h
    · split at h
      · split at h
        · cases h
        · simp only [Option.some.injEq, Prod.mk.injEq] at h
          rw [← h.1]
      · cases h

theorem searchSuffix_desc {s : List Char} {k : Nat} {g : TagGroups} {len : Nat}
    (h : searchSuffix s = some (k, g, len)) :
    g.description = (s.drop k).takeWhile isLetterCh := by
  induction s generalizing k len with
  | nil => cases h
  | cons x xs ih =>
    simp only [searchSuffix] at h
    split at h
    · rename_i g' len' heq
      simp only [Option.some.injEq, Prod.mk.injEq] at h
      obtain ⟨hk, hg, hlen⟩ := h
      subst hg
      rw [← hk]
      simpa using matchAt_desc heq
    · split at h
      · rename_i k' g' len' heq
        simp only [Option.some.injEq, Prod.mk.injEq] at h
        obtain ⟨hk, hg, hlen⟩ := h
        subst hg
        subst hlen
        rw [← hk]
        simpa using ih heq
      · cases h

theorem parseVersionTag_ok_desc {s : List Char} {li n : Nat} {v : SemVer}
    (h : parseVersionTag s li = (.ok v, n)) :
    ∀ x ∈ v.description, isLetterCh x = true := by
  simp only [parseVersionTag] at h
  split at h
  · simp at h
  · rename_i g li' heq
    simp only [Prod.mk.injEq, Except.ok.injEq] at h
    obtain ⟨hv, _⟩ := h
    subst hv
    simp only [execG] at heq
    split at heq
    · simp at heq
    · split at heq
      · simp at heq
      · rename_i k g' len hs
        simp only [Prod.mk.injEq, Option.some.injEq] at heq
        obtain ⟨hg, _⟩ := heq
        subst hg
        intro x hx
        simp only at hx
        have hd := searchSuffix_desc hs
        rw [hd] at hx
        exact List.mem_takeWhile_imp hx

theorem computeNewVersion_ok_shape {cur : SemVer} {rel : Option String} {t : List Char}
    (h : computeNewVersion cur rel = .ok t) :
    t = formatVer ⟨cur.description, cur.major + 1, 0, 0⟩ ∨
    t = formatVer ⟨cur.description, cur.major, cur.minor + 1, 0⟩ ∨
    t = formatVer ⟨cur.description, cur.major, cur.minor, cur.patch + 1⟩ := by
  have h0 : natToChars 0 = ['0'] := rfl
  unfold computeNewVersion at h
  split_ifs at h with h1 h2 h3 <;>
    simp only [Except.ok.injEq] at h <;>
    simp [← h, formatVer, formatChars, h0]

theorem testPattern_formatVer {v : SemVer} (hd : ∀ x ∈ v.description, isLetterCh x = true) :
    testPattern (formatVer v) = true := by
  have := searchSuffix_of_matchAt (matchAt_formatChars v.description hd v.major v.minor v.patch)
  simp [testPattern, formatVer, this]

theorem formatVer_ne_nil (v : SemVer) : formatVer v ≠ [] := by
  intro h
  rcases List.append_eq_nil.1 h with ⟨_, h2⟩
  rcases List.append_eq_nil.1 h2 with ⟨h3, _⟩
  exact natToChars_ne_nil v.major h3

theorem execG_none_snd {s : List Char} {li : Nat} (h : (execG s li).1 = none) :
    (execG s li).2 = 0 := by
  by_cases hli : li > s.length
  · simp [execG, hli]
  · rcases hs : searchSuffix (s.drop li) with _ | ⟨k, g, len⟩
    · simp [execG, hli, hs]
    · exfalso
      simp [execG, hli, hs] at h

theorem parseVersionTag_error_resets {s : List Char} {li : Nat} {e : JsError}
    (h : (parseVersionTag s li).1 = .error e) : (parseVersionTag s li).2 = 0 := by
  rcases hE : execG s li with ⟨o, n⟩
  cases o with
  | none =>
    have h0 : n = 0 := by
      have h1 : (execG s li).2 = 0 := execG_none_snd (by rw [hE])
      rwa [hE] at h1
    simp [parseVersionTag, hE, h0]
  | some g => simp [parseVersionTag, hE] at h

theorem isEmpty_false_of_ne_nil {α : Type} {l : List α} (h : l ≠ []) : l.isEmpty = false := by
  cases l with
  | nil => exact absurd rfl h
  | cons a t => rfl

theorem currentReleaseCore_shape (env : CmdEnv) (w : World) :
    ∃ dc, (∀ e ∈ dc, isQueryEvent e) ∧
      (currentReleaseCore env w).2 = ⟨w.packageJson, w.regex, w.trace ++ dc⟩ := by
  rcases hg : env gitVersionCmd with e | o
  · exact ⟨[.cmd gitVersionCmd], by simp [isQueryEvent],
      by simp [currentReleaseCore, isGitCommandAvailable, execute, hg]⟩
  · rcases hr : env revListCmd with e | out
    · exact ⟨[.cmd gitVersionCmd, .cmd revListCmd], by simp [isQueryEvent],
        by simp [currentReleaseCore, isGitCommandAvailable, getLastTaggedCommitSHA,
          execute, hg, hr]⟩
    · by_cases hout : out.isEmpty
      · exact ⟨[.cmd gitVersionCmd, .cmd revListCmd], by simp [isQueryEvent],
          by simp [currentReleaseCore, isGitCommandAvailable, getLastTaggedCommitSHA,
            execute, hg, hr, hout]⟩
      · rcases hd : env (describeCmd out) with e | tg
        · exact ⟨[.cmd gitVersionCmd, .cmd revListCmd, .cmd (describeCmd out)],
            by simp [isQueryEvent],
            by simp [currentReleaseCore, isGitCommandAvailable, getLastTaggedCommitSHA,
              getAssociatedTag, execute, hg, hr, hout, hd]⟩
        · exact ⟨[.cmd gitVersionCmd, .cmd revListCmd, .cmd (describeCmd out)],
            by simp [isQueryEvent],
            by simp [currentReleaseCore, isGitCommandAvailable, getLastTaggedCommitSHA,
              getAssociatedTag, execute, hg, hr, hout, hd]⟩

theorem currentReleaseParsed_shape (env : CmdEnv) (w : World) :
    ∃ dc r1, (∀ e ∈ dc, isQueryEvent e) ∧
      (currentReleaseParsed env w).2 = ⟨w.packageJson, r1, w.trace ++ dc⟩ := by
  obtain ⟨dc, hq, hcore⟩ := currentReleaseCore_shape env w
  rcases hc : currentReleaseCore env w with ⟨r, w1⟩
  rw [hc] at hcore
  cases r with
  | error e =>
    exact ⟨dc, w.regex, hq, by simp [currentReleaseParsed, hc, hcore]⟩
  | ok so =>
    have hcore1 : w1 = ⟨w.packageJson, w.regex, w.trace ++ dc⟩ := by simpa using hcore
    have hr : w1.regex = w.regex := by rw [hcore1]
    cases so with
    | none =>
      rcases hp : parseVersionTag ['n', 'u', 'l', 'l'] w.regex with ⟨pr, li⟩
      exact ⟨dc, li, hq, by simp [currentReleaseParsed, hc, hr, hp, hcore1]⟩
    | some s =>
      rcases hp : parseVersionTag s w.regex with ⟨pr, li⟩
      exact ⟨dc, li, hq, by simp [currentReleaseParsed, hc, hr, hp, hcore1]⟩

theorem computeNewReleaseTag_shape (env : CmdEnv) (args : CmdArgs) (w : World) :
    ∃ dc r1, (∀ e ∈ dc, isQueryEvent e) ∧
      (computeNewReleaseTag env args w).2 = ⟨w.packageJson, r1, w.trace ++ dc⟩ := by
  obtain ⟨dc, r1, hq, hw⟩ := currentReleaseParsed_shape env w
  rcases hp : currentReleaseParsed env w with ⟨r, w1⟩
  rw [hp] at hw
  cases r with
  | error e => exact ⟨dc, r1, hq, by simp [computeNewReleaseTag, hp, hw]⟩
  | ok cur =>
    rcases hv : computeNewVersion cur (actionRelease args) with e | s
    · exact ⟨dc, r1, hq, by simp [computeNewReleaseTag, hp, hv, hw]⟩
    · exact ⟨dc, r1, hq, by simp [computeNewReleaseTag, hp, hv, hw]⟩

theorem currentReleaseParsed_ok_desc {env : CmdEnv} {w : World} {cur : SemVer} {w1 : World}
    (h : currentReleaseParsed env w = (.ok cur, w1)) :
    ∀ x ∈ cur.description, isLetterCh x = true := by
  unfold currentReleaseParsed at h
  rcases hc : currentReleaseCore env w with ⟨r, wc⟩
  rw [hc] at h
  cases r with
  | error e => simp at h
  | ok so =>
    cases so with
    | none =>
      rcases hp : parseVersionTag "null".toList wc.regex with ⟨pr, li⟩
      simp only [hp, Prod.mk.injEq] at h
      cases pr with
      | error e => simp at h
      | ok v =>
        have hv : v = cur := by simpa using h.1
        subst hv
        exact parseVersionTag_ok_desc hp
    | some s =>
      rcases hp : parseVersionTag s wc.regex with ⟨pr, li⟩
      simp only [hp, Prod.mk.injEq] at h
      cases pr with
      | error e => simp at h
      | ok v =>
        have hv : v = cur := by simpa using h.1
        subst hv
        exact parseVersionTag_ok_desc hp

theorem computeNewReleaseTag_ok_tag {env : CmdEnv} {args : CmdArgs} {w : World} {t : List Char}
    (h : (computeNewReleaseTag env args w).1 = .ok t) :
    testPattern t = true ∧ t ≠ [] := by
  unfold computeNewReleaseTag at h
  rcases hp : currentReleaseParsed env w with ⟨r, w1⟩
  rw [hp] at h
  cases r with
  | error e => simp at h
  | ok cur =>
    rcases hv : computeNewVersion cur (actionRelease args) with e | s
    · simp only [hv] at h
      simp at h
    · simp only [hv] at h
      have hst : s = t := by simpa using h
      subst hst
      have hdesc := currentReleaseParsed_ok_desc hp
      rcases computeNewVersion_ok_shape hv with hs | hs | hs <;> rw [hs] <;>
        exact ⟨testPattern_formatVer (by simpa using hdesc), formatVer_ne_nil _⟩

theorem updatePJV_none (env : CmdEnv) (newRel : List Char) (args : CmdArgs) {w : World}
    (h : w.packageJson = none) :
    updatePackageJsonVersion env newRel args w =
      (.error (.fsError args.package_json),
       ⟨none, w.regex, w.trace ++ [.fsRead args.package_json]⟩) := by
  simp [updatePackageJsonVersion, h]

theorem updatePJV_addFail (env : CmdEnv) (newRel : List Char) (args : CmdArgs) {w : World}
    {m : Manifest} (hm : w.packageJson = some m)
    (ha : env (addCmd args.package_json) = .error ()) :
    updatePackageJsonVersion env newRel args w =
      (.error (.cmdError (addCmd args.package_json)),
       ⟨some (setField m "version" (.str (trimChars newRel))), w.regex,
        w.trace ++ [.fsRead args.package_json,
          .fsWrite args.package_json (setField m "version" (.str (trimChars newRel))) 4,
          .cmd (addCmd args.package_json)]⟩) := by
  simp [updatePackageJsonVersion, hm, execute, ha]

theorem updatePJV_amendFail (env : CmdEnv) (newRel : List Char) (args : CmdArgs) {w : World}
    {m : Manifest} {o : List Char} (hm : w.packageJson = some m)
    (ha : env (addCmd args.package_json) = .ok o) (hb : env amendCmd = .error ()) :
    updatePackageJsonVersion env newRel args w =
      (.error (.cmdError amendCmd),
       ⟨some (setField m "version" (.str (trimChars newRel))), w.regex,
        w.trace ++ [.fsRead args.package_json,
          .fsWrite args.package_json (setField m "version" (.str (trimChars newRel))) 4,
          .cmd (addCmd args.package_json), .cmd amendCmd]⟩) := by
  simp [updatePackageJsonVersion, hm, execute, ha, hb]

theorem updatePJV_ok (env : CmdEnv) (newRel : List Char) (args : CmdArgs) {w : World}
    {m : Manifest} {o o' : List Char} (hm : w.packageJson = some m)
    (ha : env (addCmd args.package_json) = .ok o) (hb : env amendCmd = .ok o') :
    updatePackageJsonVersion env newRel args w =
      (.ok (),
       ⟨some (setField m "version" (.str (trimChars newRel))), w.regex,
        w.trace ++ [.fsRead args.package_json,
          .fsWrite args.package_json (setField m "version" (.str (trimChars newRel))) 4,
          .cmd (addCmd args.package_json), .cmd amendCmd]⟩) := by
  simp [updatePackageJsonVersion, hm, execute, ha, hb]

theorem tagCC_ok {env : CmdEnv} {t : List Char} {w : World} {o : List Char}
    (ht : testPattern t = true) (he : env (tagCmd t) = .ok o) :
    tagCurrentCommit env t w = (.ok (), ⟨w.packageJson, 0, w.trace ++ [.cmd (tagCmd t)]⟩) := by
  simp [tagCurrentCommit, ht, execute, he]

theorem tagCC_fail {env : CmdEnv} {t : List Char} {w : World}
    (ht : testPattern t = true) (he : env (tagCmd t) = .error ()) :
    tagCurrentCommit env t w =
      (.error (.cmdError (tagCmd t)), ⟨w.packageJson, 0, w.trace ++ [.cmd (tagCmd t)]⟩) := by
  simp [tagCurrentCommit, ht, execute, he]

theorem tagCC_badFormat {env : CmdEnv} {t : List Char} {w : World}
    (ht : testPattern t = false) :
    tagCurrentCommit env t w =
      (.error (.tagFormatError t), ⟨w.packageJson, 0, w.trace⟩) := by
  simp [tagCurrentCommit, ht]

theorem updateCL_some_ok {env : CmdEnv} {args : CmdArgs} {t : List Char} {w : World}
    {o : List Char} (ht : t ≠ [])
    (he : env (changelogCmd args.changelog_template args.changelog_output) = .ok o) :
    updateChangelog env args (some t) w =
      (.ok (), ⟨w.packageJson, w.regex,
        w.trace ++ [.cmd (changelogCmd args.changelog_template args.changelog_output),
          .log (changelogMsg (trimChars t))]⟩) := by
  simp [updateChangelog, isEmpty_false_of_ne_nil ht, execute, he]

theorem updateCL_some_fail {env : CmdEnv} {args : CmdArgs} {t : List Char} {w : World}
    (ht : t ≠ [])
    (he : env (changelogCmd args.changelog_template args.changelog_output) = .error ()) :
    updateChangelog env args (some t) w =
      (.error (.cmdError (changelogCmd args.changelog_template args.changelog_output)),
       ⟨w.packageJson, w.regex,
        w.trace ++ [.cmd (changelogCmd args.changelog_template args.changelog_output)]⟩) := by
  simp [updateChangelog, isEmpty_false_of_ne_nil ht, execute, he]

theorem getField_setField_ne (m : Manifest) (k q : String) (v : JVal) (h : q ≠ k) :
    getField (setField m k v) q = getField m q := by
  induction m with
  | nil =>
    have h1 : k ≠ q := fun hh => h hh.symm
    simp [setField, getField, h1]
  | cons p rest ih =>
    rcases p with ⟨k0, v0⟩
    by_cases hk : k0 = k
    · subst hk
      simp [setField, getField, h, Ne.symm h]
    · simp only [setField, if_neg hk, getField]
      by_cases hq : q = k0
      · simp [hq]
      · simp [hq, ih]

theorem tagCmd_ne_gitVersionCmd (t : List Char) : tagCmd t ≠ gitVersionCmd := by
  intro h
  have h4 := congrArg (fun l => l[4]?) h
  simp only at h4
  rw [tagCmd] at h4
  rw [List.getElem?_append_left (by decide)] at h4
  exact absurd h4 (by decide)

theorem tagCmd_ne_revListCmd (t : List Char) : tagCmd t ≠ revListCmd := by
  intro h
  have h4 := congrArg (fun l => l[4]?) h
  simp only at h4
  rw [tagCmd] at h4
  rw [List.getElem?_append_left (by decide)] at h4
  exact absurd h4 (by decide)

theorem tagCmd_ne_describeCmd (t sha : List Char) : tagCmd t ≠ describeCmd sha := by
  intro h
  have h4 := congrArg (fun l => l[4]?) h
  simp only at h4
  rw [tagCmd, describeCmd] at h4
  rw [List.getElem?_append_left (by decide), List.getElem?_append_left (by decide)] at h4
  exact absurd h4 (by decide)

theorem isPrefixOf_append_of_le {p a x : List Char} (h : p.length ≤ a.length) :
    p.isPrefixOf (a ++ x) = p.isPrefixOf a := by
  induction p generalizing a with
  | nil => simp [List.isPrefixOf]
  | cons c p' ih =>
    cases a with
    | nil => simp at h
    | cons b a' =>
      simp only [List.cons_append, List.isPrefixOf, List.append_eq]
      rw [ih (by simpa using h)]

theorem hasTagCmd_false_of_queries {dc : List Event} (hq : ∀ e ∈ dc, isQueryEvent e)
    (p : List Char) : hasTagCmd (dc ++ [Event.fsRead p]) = false := by
  rw [hasTagCmd, List.any_eq_false]
  intro e he
  rcases List.mem_append.1 he with he | he
  · rcases hq e he with h | h | ⟨sha, h⟩ | ⟨l, h⟩ <;> subst h
    · simp only [gitVersionCmd]
      decide
    · simp only [revListCmd]
      decide
    · simp only [describeCmd]
      rw [isPrefixOf_append_of_le (by decide)]
      decide
    · simp
  · simp only [List.mem_singleton] at he
    subst he
    simp

theorem computeNewReleaseTag_of_parsed {env : CmdEnv} {args : CmdArgs} {w : World}
    {cur : SemVer} {w1 : World} (h : currentReleaseParsed env w = (.ok cur, w1)) :
    computeNewReleaseTag env args w =
      (match computeNewVersion cur (actionRelease args) with
       | .ok s => (.ok s, w1)
       | .error e => (.error (.computeFailed e), w1)) := by
  simp [computeNewReleaseTag, h]

/-- C1: Round-trip law — for every alphabetic (possibly empty) prefix `p` and all
non-negative integers `a`, `b`, `c`, parsing the formatted string
`"{p}{a}.{b}.{c}"` (exactly the strings `computeNewReleaseTag` produces) with
`parseVersionTag`, from the pattern's initial state, returns exactly the
components `{description := p, major := a, minor := b, patch := c}`. -/
theorem C1_roundtrip (p : List Char) (a b c : Nat)
    (hp : ∀ x ∈ p, isLetterCh x = true) :
    (parseVersionTag (formatChars p a b c) 0).1 = .ok ⟨p, a, b, c⟩ :=
  parseVersionTag_formatChars p a b c hp

/-- Witness for C1 at `p = "v"`, `a = 1`, `b = 2`, `c = 3`. -/
theorem C1_roundtrip_witness :
    (∀ x ∈ ['v'], isLetterCh x = true) ∧
    (parseVersionTag (formatChars ['v'] 1 2 3) 0).1 = .ok ⟨['v'], 1, 2, 3⟩ :=
  ⟨by decide, C1_roundtrip ['v'] 1 2 3 (by decide)⟩

/-- C2 (code evaluation): the claim requires the second separator between the
minor and patch digit groups to be the character `.`, but the unescaped dot in
`SEMVER_TAG_PATTERN` makes `parseVersionTag` accept `"1.2x3"` (as description
`""`, major 1, minor 2, patch 3) instead of failing.  The claim's listed
failure cases do hold: `""`, `"not-a-version"` and `"1.2"` all fail with a
parse error naming the input. -/
theorem C2_unescaped_dot_eval :
    (parseVersionTag "1.2x3".toList 0).1 = .ok ⟨[], 1, 2, 3⟩ ∧
    (parseVersionTag "".toList 0).1 = .error (.parseError "".toList) ∧
    (parseVersionTag "not-a-version".toList 0).1 =
      .error (.parseError "not-a-version".toList) ∧
    (parseVersionTag "1.2".toList 0).1 = .error (.parseError "1.2".toList) :=
  ⟨by decide, by decide, by decide, by decide⟩

/-- C3: Increment laws — on a parsed version, the release-type switch of
`computeNewReleaseTag` produces the string for major+1/0/0, major/minor+1/0,
or major/minor/patch+1 respectively; any other release value is rejected with
an invalid-release-type error; and `computeNewReleaseTag` is exactly this
switch applied to the parsed current release. -/
theorem C3_increment_laws (v : SemVer) :
    computeNewVersion v (some "major") = .ok (formatVer ⟨v.description, v.major + 1, 0, 0⟩) ∧
    computeNewVersion v (some "minor") =
      .ok (formatVer ⟨v.description, v.major, v.minor + 1, 0⟩) ∧
    computeNewVersion v (some "patch") =
      .ok (formatVer ⟨v.description, v.major, v.minor, v.patch + 1⟩) ∧
    (∀ r : Option String, r ≠ some "major" → r ≠ some "minor" → r ≠ some "patch" →
      computeNewVersion v r = .error (.invalidReleaseType r)) ∧
    (∀ (env : CmdEnv) (args : CmdArgs) (w w1 : World) (cur : SemVer),
      currentReleaseParsed env w = (.ok cur, w1) →
      computeNewReleaseTag env args w =
        (match computeNewVersion cur (actionRelease args) with
         | .ok s => (.ok s, w1)
         | .error e => (.error (.computeFailed e), w1))) := by
  have h0 : natToChars 0 = ['0'] := rfl
  refine ⟨?_, ?_, ?_, ?_, ?_⟩
  · simp [computeNewVersion, formatVer, formatChars, h0]
  · simp [computeNewVersion, formatVer, formatChars, h0]
  · simp [computeNewVersion, formatVer, formatChars, h0]
  · intro r h1 h2 h3
    simp [computeNewVersion, h1, h2, h3]
  · intro env args w w1 cur h
    exact computeNewReleaseTag_of_parsed h

/-- Witness for C3 at `v = ⟨"v", 1, 2, 3⟩`, invalid kind `"foo"`, and a
zero-tag repository environment for the `computeNewReleaseTag` conjunct. -/
theorem C3_increment_laws_witness :
    computeNewVersion ⟨['v'], 1, 2, 3⟩ (some "major") =
      .ok (formatVer ⟨['v'], 1 + 1, 0, 0⟩) ∧
    computeNewVersion ⟨['v'], 1, 2, 3⟩ (some "foo") =
      .error (.invalidReleaseType (some "foo")) ∧
    computeNewReleaseTag testEnvAllOk testArgsPatch (testWorld none) =
      (match computeNewVersion ⟨[], 0, 0, 0⟩ (actionRelease testArgsPatch) with
       | .ok s => (.ok s, ⟨none, 5, [.cmd gitVersionCmd, .cmd revListCmd]⟩)
       | .error e =>
         (.error (.computeFailed e), ⟨none, 5, [.cmd gitVersionCmd, .cmd revListCmd]⟩)) :=
  ⟨(C3_increment_laws ⟨['v'], 1, 2, 3⟩).1,
   (C3_increment_laws ⟨['v'], 1, 2, 3⟩).2.2.2.1 (some "foo")
     (by decide) (by decide) (by decide),
   (C3_increment_laws ⟨['v'], 1, 2, 3⟩).2.2.2.2 testEnvAllOk testArgsPatch (testWorld none)
     ⟨none, 5, [.cmd gitVersionCmd, .cmd revListCmd]⟩ ⟨[], 0, 0, 0⟩ (by decide)⟩

/-- C5: Default-zero behavior — with git available, resolving the current
release in a repository with zero tags returns the string `"0.0.0"` and does
not fail, both when the tag-listing command (`git rev-list --tags
--max-count=1`) errors and when it succeeds with empty output (the empty
string is falsy, so the ternary picks `SEMVER_ZERO` in both cases). -/
theorem C5_default_zero (env : CmdEnv) (args : CmdArgs) (w : World) (out : List Char)
    (hgit : env gitVersionCmd = .ok out)
    (h : env revListCmd = .error () ∨ env revListCmd = .ok []) :
    (currentRelease env args w).1 = .ok (some SEMVER_ZERO) := by
  rcases h with h | h <;>
    by_cases hv : args.verbose <;>
      simp [currentRelease, currentReleaseCore, isGitCommandAvailable,
        getLastTaggedCommitSHA, execute, hgit, h, hv]

/-- Witness for C5 in the failing-command environment. -/
theorem C5_default_zero_witness :
    (currentRelease testEnvNoTags testArgsPatch (testWorld none)).1 =
      .ok (some SEMVER_ZERO) :=
  C5_default_zero testEnvNoTags testArgsPatch (testWorld none)
    "git version 2.39.0".toList (by decide) (Or.inl (by decide))

/-- C7 (code evaluation): invoking the CLI with `--current` does not report the
current version.  `processArgs` does set the verbose flag, but the `main`
dispatch reads `args.action.name` from the *string* constant
`"currentRelease"`, producing the key `"undefined"`; that key (and indeed
`currentRelease` itself) is not among the exports of `src/src/index.js`
(`updateChangelog`, `createRelease`), so the call throws a TypeError and the
world is untouched — nothing is written to standard output. -/
theorem C7_current_dispatch_crash (env : CmdEnv) (w : World) :
    (processArgs (parseCLI (some .current))).verbose = true ∧
    runMain env (some .current) w = (.typeError "undefined", w) := by
  constructor
  · decide
  · simp [runMain, parseCLI, processArgs, dispatchKey, actionConst]

/-- C9 counterexample: `parseVersionTag` is not deterministic across successive
invocations — on `"1.2.3"` the first call (from the pattern's initial state)
succeeds and leaves `lastIndex = 5`; the immediately following call on the very
same string then fails with a parse error. -/
theorem C9_counterexample :
    (parseVersionTag "1.2.3".toList 0).1 = .ok ⟨[], 1, 2, 3⟩ ∧
    (parseVersionTag "1.2.3".toList 0).2 = 5 ∧
    (parseVersionTag "1.2.3".toList 5).1 = .error (.parseError "1.2.3".toList) :=
  ⟨by decide, by decide, by decide⟩

/-- C9 (amended): `parseVersionTag` is deterministic only as a function of the
input together with the shared pattern's `lastIndex`.  A failing invocation
resets `lastIndex` to 0, so when the first invocation (from the initial state)
fails, an immediately repeated invocation produces the identical outcome; a
successful invocation instead advances `lastIndex`, and the repeated
invocation can then fail (see the counterexample). -/
theorem C9_failure_stable (s : List Char) (e : JsError)
    (h : (parseVersionTag s 0).1 = .error e) :
    parseVersionTag s ((parseVersionTag s 0).2) = parseVersionTag s 0 := by
  rw [parseVersionTag_error_resets h]

/-- Witness for C9 (amended) at the non-matching input `"x"`. -/
theorem C9_failure_stable_witness :
    (parseVersionTag ['x'] 0).1 = .error (.parseError ['x']) ∧
    parseVersionTag ['x'] ((parseVersionTag ['x'] 0).2) = parseVersionTag ['x'] 0 :=
  ⟨by decide, C9_failure_stable ['x'] (.parseError ['x']) (by decide)⟩

/-- C8: Defensive tag validation — every tag produced by the release-type
switch from a successfully parsed version (alphabetic description) passes
`tagCurrentCommit`'s format check: the `git tag` command is invoked with
exactly that string and the format-error branch is unreachable; conversely,
for a string failing the check, the raised error names the offending string
and no command is run. -/
theorem C8_tag_validation (v : SemVer) (hd : ∀ x ∈ v.description, isLetterCh x = true)
    (r : Option String) (t : List Char) (hr : computeNewVersion v r = .ok t)
    (env : CmdEnv) (w : World) (s : List Char) (hs : testPattern s = false) :
    testPattern t = true ∧
    (tagCurrentCommit env t w).2.trace = w.trace ++ [.cmd (tagCmd t)] ∧
    (tagCurrentCommit env t w).1 ≠ .error (.tagFormatError t) ∧
    tagCurrentCommit env s w =
      (.error (.tagFormatError s), ⟨w.packageJson, 0, w.trace⟩) := by
  have ht : testPattern t = true := by
    rcases computeNewVersion_ok_shape hr with hsh | hsh | hsh <;> rw [hsh] <;>
      exact testPattern_formatVer (by simpa using hd)
  refine ⟨ht, ?_, ?_, tagCC_badFormat hs⟩
  · rcases he : env (tagCmd t) with e | o
    · cases e
      rw [tagCC_fail ht he]
    · rw [tagCC_ok ht he]
  · rcases he : env (tagCmd t) with e | o
    · cases e
      rw [tagCC_fail ht he]
      simp
    · rw [tagCC_ok ht he]
      simp

/-- Witness for C8 at `v = ⟨"v", 1, 2, 3⟩`, kind `"patch"` (tag `"v1.2.4"`),
and the failing string `"nope"`. -/
theorem C8_tag_validation_witness :
    testPattern "v1.2.4".toList = true ∧
    (tagCurrentCommit testEnvNoTags "v1.2.4".toList (testWorld none)).2.trace =
      (testWorld none).trace ++ [.cmd (tagCmd "v1.2.4".toList)] ∧
    (tagCurrentCommit testEnvNoTags "v1.2.4".toList (testWorld none)).1 ≠
      .error (.tagFormatError "v1.2.4".toList) ∧
    tagCurrentCommit testEnvNoTags "nope".toList (testWorld none) =
      (.error (.tagFormatError "nope".toList),
       ⟨(testWorld none).packageJson, 0, (testWorld none).trace⟩) :=
  C8_tag_validation ⟨['v'], 1, 2, 3⟩ (by decide) (some "patch") "v1.2.4".toList
    (by decide) testEnvNoTags (testWorld none) "nope".toList (by decide)

/-- C4: `createRelease` runs exactly the sequence compute-new-tag, persist the
version to the manifest, create the git tag, regenerate the changelog, in that
order.  The trace is an exact prefix of the full pipeline cut at the failing
step (no later step runs, no rollback of earlier ones), and every failure is
propagated as the single wrapped error `releaseFailed` naming the release kind
being produced.  The events `dc` of the compute step are only git queries and
log lines. -/
theorem C4_pipeline (env : CmdEnv) (args : CmdArgs) (w : World) :
    ∃ dc, (∀ e ∈ dc, isQueryEvent e) ∧
      ((∃ e, (computeNewReleaseTag env args w).1 = .error e ∧
          (createRelease env args w).1 = .error (.releaseFailed (actionRelease args) e) ∧
          (createRelease env args w).2.trace = w.trace ++ dc) ∨
       (∃ t, (computeNewReleaseTag env args w).1 = .ok t ∧ w.packageJson = none ∧
          (createRelease env args w).1 =
            .error (.releaseFailed (actionRelease args) (.fsError args.package_json)) ∧
          (createRelease env args w).2.trace =
            w.trace ++ dc ++ [.fsRead args.package_json]) ∨
       (∃ t m, (computeNewReleaseTag env args w).1 = .ok t ∧ w.packageJson = some m ∧
          (createRelease env args w).1 =
            .error (.releaseFailed (actionRelease args)
              (.cmdError (addCmd args.package_json))) ∧
          (createRelease env args w).2.trace =
            w.trace ++ dc ++ [.fsRead args.package_json,
              .fsWrite args.package_json (setField m "version" (.str (trimChars t))) 4,
              .cmd (addCmd args.package_json)]) ∨
       (∃ t m, (computeNewReleaseTag env args w).1 = .ok t ∧ w.packageJson = some m ∧
          (createRelease env args w).1 =
            .error (.releaseFailed (actionRelease args) (.cmdError amendCmd)) ∧
          (createRelease env args w).2.trace =
            w.trace ++ dc ++
              persistEvents args.package_json (setField m "version" (.str (trimChars t)))) ∨
       (∃ t m, (computeNewReleaseTag env args w).1 = .ok t ∧ w.packageJson = some m ∧
          (createRelease env args w).1 =
            .error (.releaseFailed (actionRelease args) (.cmdError (tagCmd t))) ∧
          (createRelease env args w).2.trace =
            w.trace ++ dc ++
              persistEvents args.package_json (setField m "version" (.str (trimChars t))) ++
              [.cmd (tagCmd t)]) ∨
       (∃ t m, (computeNewReleaseTag env args w).1 = .ok t ∧ w.packageJson = some m ∧
          (createRelease env args w).1 =
            .error (.releaseFailed (actionRelease args)
              (.cmdError (changelogCmd args.changelog_template args.changelog_output))) ∧
          (createRelease env args w).2.trace =
            w.trace ++ dc ++
              persistEvents args.package_json (setField m "version" (.str (trimChars t))) ++
              [.cmd (tagCmd t),
               .cmd (changelogCmd args.changelog_template args.changelog_output)]) ∨
       (∃ t m, (computeNewReleaseTag env args w).1 = .ok t ∧ w.packageJson = some m ∧
          (createRelease env args w).1 = .ok () ∧
          (createRelease env args w).2.trace =
            w.trace ++ dc ++
              persistEvents args.package_json (setField m "version" (.str (trimChars t))) ++
              [.cmd (tagCmd t),
               .cmd (changelogCmd args.changelog_template args.changelog_output),
               .log (changelogMsg (trimChars t))])) := by
  obtain ⟨dc, r1, hq, hw⟩ := computeNewReleaseTag_shape env args w
  rcases hcomp : computeNewReleaseTag env args w with ⟨rc, w1⟩
  have hw1 : w1 = ⟨w.packageJson, r1, w.trace ++ dc⟩ := by
    rw [hcomp] at hw
    simpa using hw
  refine ⟨dc, hq, ?_⟩
  cases rc with
  | error e =>
    refine Or.inl ⟨e, rfl, ?_, ?_⟩
    · simp [createRelease, hcomp]
    · simp [createRelease, hcomp, hw1]
  | ok t =>
    have hok : (computeNewReleaseTag env args w).1 = .ok t := by simp [hcomp]
    obtain ⟨hpt, htne⟩ := computeNewReleaseTag_ok_tag hok
    rcases hpj : w.packageJson with _ | m
    · rw [hpj] at hw1
      subst hw1
      have hpv := updatePJV_none env t args (w := ⟨none, r1, w.trace ++ dc⟩) rfl
      refine Or.inr (Or.inl ⟨t, rfl, rfl, ?_, ?_⟩)
      · simp [createRelease, hcomp, hpv]
      · simp [createRelease, hcomp, hpv]
    · rw [hpj] at hw1
      subst hw1
      rcases ha : env (addCmd args.package_json) with ae | ao
      · cases ae
        have hpv := updatePJV_addFail env t args (w := ⟨some m, r1, w.trace ++ dc⟩) rfl ha
        refine Or.inr (Or.inr (Or.inl ⟨t, m, rfl, rfl, ?_, ?_⟩))
        · simp [createRelease, hcomp, hpv]
        · simp [createRelease, hcomp, hpv]
      · rcases hb : env amendCmd with be | bo
        · cases be
          have hpv := updatePJV_amendFail env t args (w := ⟨some m, r1, w.trace ++ dc⟩) rfl ha hb
          refine Or.inr (Or.inr (Or.inr (Or.inl ⟨t, m, rfl, rfl, ?_, ?_⟩)))
          · simp [createRelease, hcomp, hpv]
          · simp [createRelease, hcomp, hpv, persistEvents]
        · have hpv := updatePJV_ok env t args (w := ⟨some m, r1, w.trace ++ dc⟩) rfl ha hb
          rcases hc : env (tagCmd t) with ce | co
          · cases ce
            refine Or.inr (Or.inr (Or.inr (Or.inr (Or.inl ⟨t, m, rfl, rfl, ?_, ?_⟩))))
            · simp [createRelease, hcomp, hpv, tagCC_fail hpt hc]
            · simp [createRelease, hcomp, hpv, tagCC_fail hpt hc, persistEvents]
          · rcases hd2 : env (changelogCmd args.changelog_template args.changelog_output)
                with de | dd
            · cases de
              refine Or.inr (Or.inr (Or.inr (Or.inr (Or.inr
                (Or.inl ⟨t, m, rfl, rfl, ?_, ?_⟩)))))
              · simp [createRelease, hcomp, hpv, tagCC_ok hpt hc,
                  updateCL_some_fail htne hd2]
              · simp [createRelease, hcomp, hpv, tagCC_ok hpt hc,
                  updateCL_some_fail htne hd2, persistEvents]
            · refine Or.inr (Or.inr (Or.inr (Or.inr (Or.inr
                (Or.inr ⟨t, m, rfl, rfl, ?_, ?_⟩)))))
              · simp [createRelease, hcomp, hpv, tagCC_ok hpt hc,
                  updateCL_some_ok htne hd2]
              · simp [createRelease, hcomp, hpv, tagCC_ok hpt hc,
                  updateCL_some_ok htne hd2, persistEvents]

/-- Witness for C4: the full instantiated pipeline statement in an
all-commands-succeed environment over a present manifest. -/
theorem C4_pipeline_witness :
    ∃ dc, (∀ e ∈ dc, isQueryEvent e) ∧
      ((∃ e, (computeNewReleaseTag testEnvAllOk testArgsPatch
            (testWorld (some testManifest))).1 = .error e ∧
          (createRelease testEnvAllOk testArgsPatch (testWorld (some testManifest))).1 =
            .error (.releaseFailed (actionRelease testArgsPatch) e) ∧
          (createRelease testEnvAllOk testArgsPatch
            (testWorld (some testManifest))).2.trace =
            (testWorld (some testManifest)).trace ++ dc) ∨
       (∃ t, (computeNewReleaseTag testEnvAllOk testArgsPatch
            (testWorld (some testManifest))).1 = .ok t ∧
          (testWorld (some testManifest)).packageJson = none ∧
          (createRelease testEnvAllOk testArgsPatch (testWorld (some testManifest))).1 =
            .error (.releaseFailed (actionRelease testArgsPatch)
              (.fsError testArgsPatch.package_json)) ∧
          (createRelease testEnvAllOk testArgsPatch
            (testWorld (some testManifest))).2.trace =
            (testWorld (some testManifest)).trace ++ dc ++
              [.fsRead testArgsPatch.package_json]) ∨
       (∃ t m, (computeNewReleaseTag testEnvAllOk testArgsPatch
            (testWorld (some testManifest))).1 = .ok t ∧
          (testWorld (some testManifest)).packageJson = some m ∧
          (createRelease testEnvAllOk testArgsPatch (testWorld (some testManifest))).1 =
            .error (.releaseFailed (actionRelease testArgsPatch)
              (.cmdError (addCmd testArgsPatch.package_json))) ∧
          (createRelease testEnvAllOk testArgsPatch
            (testWorld (some testManifest))).2.trace =
            (testWorld (some testManifest)).trace ++ dc ++
              [.fsRead testArgsPatch.package_json,
               .fsWrite testArgsPatch.package_json
                 (setField m "version" (.str (trimChars t))) 4,
               .cmd (addCmd testArgsPatch.package_json)]) ∨
       (∃ t m, (computeNewReleaseTag testEnvAllOk testArgsPatch
            (testWorld (some testManifest))).1 = .ok t ∧
          (testWorld (some testManifest)).packageJson = some m ∧
          (createRelease testEnvAllOk testArgsPatch (testWorld (some testManifest))).1 =
            .error (.releaseFailed (actionRelease testArgsPatch) (.cmdError amendCmd)) ∧
          (createRelease testEnvAllOk testArgsPatch
            (testWorld (some testManifest))).2.trace =
            (testWorld (some testManifest)).trace ++ dc ++
              persistEvents testArgsPatch.package_json
                (setField m "version" (.str (trimChars t)))) ∨
       (∃ t m, (computeNewReleaseTag testEnvAllOk testArgsPatch
            (testWorld (some testManifest))).1 = .ok t ∧
          (testWorld (some testManifest)).packageJson = some m ∧
          (createRelease testEnvAllOk testArgsPatch (testWorld (some testManifest))).1 =
            .error (.releaseFailed (actionRelease testArgsPatch) (.cmdError (tagCmd t))) ∧
          (createRelease testEnvAllOk testArgsPatch
            (testWorld (some testManifest))).2.trace =
            (testWorld (some testManifest)).trace ++ dc ++
              persistEvents testArgsPatch.package_json
                (setField m "version" (.str (trimChars t))) ++
              [.cmd (tagCmd t)]) ∨
       (∃ t m, (computeNewReleaseTag testEnvAllOk testArgsPatch
            (testWorld (some testManifest))).1 = .ok t ∧
          (testWorld (some testManifest)).packageJson = some m ∧
          (createRelease testEnvAllOk testArgsPatch (testWorld (some testManifest))).1 =
            .error (.releaseFailed (actionRelease testArgsPatch)
              (.cmdError (changelogCmd testArgsPatch.changelog_template
                testArgsPatch.changelog_output))) ∧
          (createRelease testEnvAllOk testArgsPatch
            (testWorld (some testManifest))).2.trace =
            (testWorld (some testManifest)).trace ++ dc ++
              persistEvents testArgsPatch.package_json
                (setField m "version" (.str (trimChars t))) ++
              [.cmd (tagCmd t),
               .cmd (changelogCmd testArgsPatch.changelog_template
                 testArgsPatch.changelog_output)]) ∨
       (∃ t m, (computeNewReleaseTag testEnvAllOk testArgsPatch
            (testWorld (some testManifest))).1 = .ok t ∧
          (testWorld (some testManifest)).packageJson = some m ∧
          (createRelease testEnvAllOk testArgsPatch (testWorld (some testManifest))).1 =
            .ok () ∧
          (createRelease testEnvAllOk testArgsPatch
            (testWorld (some testManifest))).2.trace =
            (testWorld (some testManifest)).trace ++ dc ++
              persistEvents testArgsPatch.package_json
                (setField m "version" (.str (trimChars t))) ++
              [.cmd (tagCmd t),
               .cmd (changelogCmd testArgsPatch.changelog_template
                 testArgsPatch.changelog_output),
               .log (changelogMsg (trimChars t))])) :=
  C4_pipeline testEnvAllOk testArgsPatch (testWorld (some testManifest))

theorem getField_setField_self (m : Manifest) (k : String) (v : JVal) :
    getField (setField m k v) k = some v := by
  induction m with
  | nil => simp [setField, getField]
  | cons p rest ih =>
    rcases p with ⟨k0, v0⟩
    by_cases hk : k0 = k
    · subst hk
      simp [setField, getField]
    · simp [setField, hk, getField, ih]

/-- C6: Persisting a new version rewrites the manifest as JSON with 4-space
indentation, changing only the `version` field (every other field keeps its
value); if the manifest file does not exist, the operation fails with a
file-not-found error and the release sequence aborts before tagging (the trace
contains no `git tag` command). -/
theorem C6_persist_manifest (env : CmdEnv) (args : CmdArgs) (w1 w2 : World)
    (m : Manifest) (newRel t : List Char) (q : String)
    (h1 : w1.packageJson = some m)
    (hq : q ≠ "version")
    (h2 : w2.packageJson = none)
    (h3 : (computeNewReleaseTag env args w2).1 = .ok t) :
    (∃ rest, (updatePackageJsonVersion env newRel args w1).2.trace =
      w1.trace ++ [.fsRead args.package_json,
        .fsWrite args.package_json (setField m "version" (.str (trimChars newRel))) 4] ++
        rest) ∧
    getField (setField m "version" (.str (trimChars newRel))) q = getField m q ∧
    getField (setField m "version" (.str (trimChars newRel))) "version" =
      some (.str (trimChars newRel)) ∧
    (createRelease env args w2).1 =
      .error (.releaseFailed (actionRelease args) (.fsError args.package_json)) ∧
    (∃ dc, (∀ e ∈ dc, isQueryEvent e) ∧
      (createRelease env args w2).2.trace =
        w2.trace ++ dc ++ [.fsRead args.package_json] ∧
      hasTagCmd (dc ++ [.fsRead args.package_json]) = false) := by
  refine ⟨?_, getField_setField_ne m "version" q _ hq,
    getField_setField_self m "version" _, ?_⟩
  · rcases ha : env (addCmd args.package_json) with ae | ao
    · cases ae
      refine ⟨[.cmd (addCmd args.package_json)], ?_⟩
      rw [updatePJV_addFail env newRel args h1 ha]
      simp
    · rcases hb : env amendCmd with be | bo
      · cases be
        refine ⟨[.cmd (addCmd args.package_json), .cmd amendCmd], ?_⟩
        rw [updatePJV_amendFail env newRel args h1 ha hb]
        simp
      · refine ⟨[.cmd (addCmd args.package_json), .cmd amendCmd], ?_⟩
        rw [updatePJV_ok env newRel args h1 ha hb]
        simp
  · obtain ⟨dc, r1, hqd, hw⟩ := computeNewReleaseTag_shape env args w2
    rcases hcomp : computeNewReleaseTag env args w2 with ⟨rc, w1c⟩
    have hrc : rc = .ok t := by
      rw [hcomp] at h3
      simpa using h3
    subst hrc
    have hw1 : w1c = ⟨w2.packageJson, r1, w2.trace ++ dc⟩ := by
      rw [hcomp] at hw
      simpa using hw
    rw [h2] at hw1
    subst hw1
    have hpv := updatePJV_none env t args (w := ⟨none, r1, w2.trace ++ dc⟩) rfl
    refine ⟨?_, dc, hqd, ?_, hasTagCmd_false_of_queries hqd _⟩
    · simp [createRelease, hcomp, hpv]
    · simp [createRelease, hcomp, hpv]

/-- Witness for C6: a present manifest with `name` and `version` fields,
query key `"name"`, and a world with a missing manifest in an environment
where the new tag `"0.0.1"` is computed successfully. -/
theorem C6_persist_manifest_witness :
    (∃ rest, (updatePackageJsonVersion testEnvAllOk "v1.5.0".toList testArgsPatch
        (testWorld (some testManifest))).2.trace =
      (testWorld (some testManifest)).trace ++ [.fsRead testArgsPatch.package_json,
        .fsWrite testArgsPatch.package_json
          (setField testManifest "version" (.str (trimChars "v1.5.0".toList))) 4] ++
        rest) ∧
    getField (setField testManifest "version" (.str (trimChars "v1.5.0".toList))) "name" =
      getField testManifest "name" ∧
    getField (setField testManifest "version" (.str (trimChars "v1.5.0".toList))) "version" =
      some (.str (trimChars "v1.5.0".toList)) ∧
    (createRelease testEnvAllOk testArgsPatch (testWorld none)).1 =
      .error (.releaseFailed (actionRelease testArgsPatch)
        (.fsError testArgsPatch.package_json)) ∧
    (∃ dc, (∀ e ∈ dc, isQueryEvent e) ∧
      (createRelease testEnvAllOk testArgsPatch (testWorld none)).2.trace =
        (testWorld none).trace ++ dc ++ [.fsRead testArgsPatch.package_json] ∧
      hasTagCmd (dc ++ [.fsRead testArgsPatch.package_json]) = false) :=
  C6_persist_manifest testEnvAllOk testArgsPatch (testWorld (some testManifest))
    (testWorld none) testManifest "v1.5.0".toList "0.0.1".toList "name"
    rfl (by decide) rfl (by decide)

/-- C10: Persisting the version has side effects beyond the manifest rewrite:
after the file write, `updatePackageJsonVersion` always stages the manifest
(`git add <path>`); on success it has, in order, read, written (indent 4),
staged, and amended (`git commit --amend --no-edit`); and in a successful
`createRelease` these events precede the `git tag` command, so the manifest
change is part of the commit that is subsequently tagged. -/
theorem C10_persist_side_effects (env : CmdEnv) (newRel : List Char) (args : CmdArgs)
    (w : World) (m : Manifest) (hm : w.packageJson = some m) :
    (∃ rest, (updatePackageJsonVersion env newRel args w).2.trace =
      w.trace ++ [.fsRead args.package_json,
        .fsWrite args.package_json (setField m "version" (.str (trimChars newRel))) 4,
        .cmd (addCmd args.package_json)] ++ rest) ∧
    ((updatePackageJsonVersion env newRel args w).1 = .ok () →
      (updatePackageJsonVersion env newRel args w).2.trace =
        w.trace ++ [.fsRead args.package_json,
          .fsWrite args.package_json (setField m "version" (.str (trimChars newRel))) 4,
          .cmd (addCmd args.package_json), .cmd amendCmd]) ∧
    ((createRelease env args w).1 = .ok () →
      ∃ dc t, (∀ e ∈ dc, isQueryEvent e) ∧
        (createRelease env args w).2.trace =
          w.trace ++ dc ++ [.fsRead args.package_json,
            .fsWrite args.package_json (setField m "version" (.str (trimChars t))) 4,
            .cmd (addCmd args.package_json), .cmd amendCmd,
            .cmd (tagCmd t),
            .cmd (changelogCmd args.changelog_template args.changelog_output),
            .log (changelogMsg (trimChars t))]) := by
  refine ⟨?_, ?_, ?_⟩
  · rcases ha : env (addCmd args.package_json) with ae | ao
    · cases ae
      refine ⟨[], ?_⟩
      rw [updatePJV_addFail env newRel args hm ha]
      simp
    · rcases hb : env amendCmd with be | bo
      · cases be
        refine ⟨[.cmd amendCmd], ?_⟩
        rw [updatePJV_amendFail env newRel args hm ha hb]
        simp
      · refine ⟨[.cmd amendCmd], ?_⟩
        rw [updatePJV_ok env newRel args hm ha hb]
        simp
  · intro hsucc
    rcases ha : env (addCmd args.package_json) with ae | ao
    · cases ae
      rw [updatePJV_addFail env newRel args hm ha] at hsucc
      simp at hsucc
    · rcases hb : env amendCmd with be | bo
      · cases be
        rw [updatePJV_amendFail env newRel args hm ha hb] at hsucc
        simp at hsucc
      · rw [updatePJV_ok env newRel args hm ha hb]
  · intro hsucc
    obtain ⟨dc, r1, hqd, hw⟩ := computeNewReleaseTag_shape env args w
    rcases hcomp : computeNewReleaseTag env args w with ⟨rc, w1⟩
    have hw1 : w1 = ⟨w.packageJson, r1, w.trace ++ dc⟩ := by
      rw [hcomp] at hw
      simpa using hw
    rw [hm] at hw1
    subst hw1
    cases rc with
    | error e => simp [createRelease, hcomp] at hsucc
    | ok t =>
      have hok : (computeNewReleaseTag env args w).1 = .ok t := by simp [hcomp]
      obtain ⟨hpt, htne⟩ := computeNewReleaseTag_ok_tag hok
      rcases ha : env (addCmd args.package_json) with ae | ao
      · cases ae
        have hpv := updatePJV_addFail env t args (w := ⟨some m, r1, w.trace ++ dc⟩) rfl ha
        simp [createRelease, hcomp, hpv] at hsucc
      · rcases hb : env amendCmd with be | bo
        · cases be
          have hpv := updatePJV_amendFail env t args (w := ⟨some m, r1, w.trace ++ dc⟩) rfl ha hb
          simp [createRelease, hcomp, hpv] at hsucc
        · have hpv := updatePJV_ok env t args (w := ⟨some m, r1, w.trace ++ dc⟩) rfl ha hb
          rcases hc : env (tagCmd t) with ce | co
          · cases ce
            simp [createRelease, hcomp, hpv, tagCC_fail hpt hc] at hsucc
          · rcases hd2 : env (changelogCmd args.changelog_template args.changelog_output)
                with de | dd
            · cases de
              simp [createRelease, hcomp, hpv, tagCC_ok hpt hc,
                updateCL_some_fail htne hd2] at hsucc
            · refine ⟨dc, t, hqd, ?_⟩
              simp [createRelease, hcomp, hpv, tagCC_ok hpt hc,
                updateCL_some_ok htne hd2]

/-- Witness for C10 in the all-commands-succeed environment over a present
manifest (the release succeeds, so both implications are exercised). -/
theorem C10_persist_side_effects_witness :
    (∃ rest, (updatePackageJsonVersion testEnvAllOk "0.0.1".toList testArgsPatch
        (testWorld (some testManifest))).2.trace =
      (testWorld (some testManifest)).trace ++ [.fsRead testArgsPatch.package_json,
        .fsWrite testArgsPatch.package_json
          (setField testManifest "version" (.str (trimChars "0.0.1".toList))) 4,
        .cmd (addCmd testArgsPatch.package_json)] ++ rest) ∧
    ((updatePackageJsonVersion testEnvAllOk "0.0.1".toList testArgsPatch
        (testWorld (some testManifest))).1 = .ok () →
      (updatePackageJsonVersion testEnvAllOk "0.0.1".toList testArgsPatch
        (testWorld (some testManifest))).2.trace =
        (testWorld (some testManifest)).trace ++ [.fsRead testArgsPatch.package_json,
          .fsWrite testArgsPatch.package_json
            (setField testManifest "version" (.str (trimChars "0.0.1".toList))) 4,
          .cmd (addCmd testArgsPatch.package_json), .cmd amendCmd]) ∧
    ((createRelease testEnvAllOk testArgsPatch (testWorld (some testManifest))).1 = .ok () →
      ∃ dc t, (∀ e ∈ dc, isQueryEvent e) ∧
        (createRelease testEnvAllOk testArgsPatch
          (testWorld (some testManifest))).2.trace =
          (testWorld (some testManifest)).trace ++ dc ++
            [.fsRead testArgsPatch.package_json,
             .fsWrite testArgsPatch.package_json
               (setField testManifest "version" (.str (trimChars t))) 4,
             .cmd (addCmd testArgsPatch.package_json), .cmd amendCmd,
             .cmd (tagCmd t),
             .cmd (changelogCmd testArgsPatch.changelog_template
               testArgsPatch.changelog_output),
             .log (changelogMsg (trimChars t))]) :=
  C10_persist_side_effects testEnvAllOk "0.0.1".toList testArgsPatch
    (testWorld (some testManifest)) testManifest rfl
